import Mathlib

/-!
Verification of the What-2-Watch vibe-search pipeline.

Shallow embedding of the Go sources:
  internal/embeddings/embeddings.go  (VectorStore.Search, CosineSimilarity)
  internal/services/scraper.go       (VibeSearchService.Search,
                                      GetSimilarToMedia, GetHiddenGems)

Modelling conventions:
  * float32/float64 arithmetic is idealised as exact arithmetic: vector
    components and scores are rationals, cosine similarity lands in the reals
    (because of the square roots).  The zero-norm and length guards of the
    source are kept verbatim.
  * a Go map iteration is modelled by the list of key/value pairs in the order
    the iteration happens to produce (Go randomises that order, so statements
    about "the same map" quantify over permutations of the entry list);
  * Go's sort.Slice with the strict greater-than comparator is modelled by a
    comparison sort with respect to the matching non-strict order on scores;
  * every effectful dependency (embedder, database, LLM client) is a pure
    function recording what the corresponding call returns during the run;
    fallible calls return Except values.
-/

/-- Embedding vectors: Go `[]float32`, idealised with exact rationals. -/
abbrev Vec := List ℚ

/-- models.Media: the fields the verified operations read.  -/
structure Media where
  id : String
  title : String
  vibeProfile : String
  qualityScore : ℚ
  popularityScore : ℚ
deriving Repr, DecidableEq

/-- embeddings.SearchResult (embeddings.go:143-146).  The similarity type is a
parameter: the source stores the float64 result of CosineSimilarity, here any
linearly ordered score type (the real-valued cosine is one instance). -/
structure SearchResult (α : Type) where
  mediaID : String
  similarity : α
deriving Repr, DecidableEq

/-- The running dot-product loop of CosineSimilarity (embeddings.go:190-194):
the source iterates index-wise and accumulates; it is only ever reached with
equal-length inputs. -/
def dotList : Vec → Vec → ℚ
  | a :: as, b :: bs => a * b + dotList as bs
  | _, _ => 0

/-- The accumulated squared norm of one argument (normA / normB in
embeddings.go:189-194). -/
def normSqList (a : Vec) : ℚ := dotList a a

/-- CosineSimilarity (embeddings.go:184-201): 0 on length mismatch, 0 when
either accumulated norm is zero, otherwise dot/(‖a‖·‖b‖). -/
noncomputable def CosineSimilarity (a b : Vec) : ℝ :=
  if a.length ≠ b.length then 0
  else if normSqList a = 0 ∨ normSqList b = 0 then 0
  else (dotList a b : ℝ) / (Real.sqrt (normSqList a) * Real.sqrt (normSqList b))

/-- VectorStore.Search (embeddings.go:150-181).  `vectors` is the entry
sequence one Go map iteration produces; `sim` is the similarity measure the
candidates are scored with (the source instantiates it with CosineSimilarity).
Excluded ids are skipped, the rest are scored, sorted by similarity
descending, and truncated to `topK`. -/
def VectorStore.Search {α : Type} [LinearOrder α] (sim : Vec → Vec → α)
    (vectors : List (String × Vec)) (query : Vec) (topK : ℕ)
    (excludeIDs : Finset String) : List (SearchResult α) :=
  if vectors.isEmpty then []
  else
    let results := (vectors.filter (fun e => decide (e.1 ∉ excludeIDs))).map
      (fun e => ⟨e.1, sim query e.2⟩)
    (results.insertionSort (fun r s => s.similarity ≤ r.similarity)).take topK

/-- llm.RerankCandidate (llm.go:144-147). -/
structure RerankCandidate (α : Type) where
  media : Media
  vibeScore : α
deriving Repr, DecidableEq

/-- llm.RerankResult (llm.go:150-154): one judge verdict. -/
structure RerankResult where
  mediaID : String
  rank : ℤ
  explanation : String
deriving Repr, DecidableEq

/-- models.Recommendation: the API output record. -/
structure Recommendation (α : Type) where
  media : Media
  vibeScore : α
  explanation : String
  rank : ℤ
deriving Repr, DecidableEq

/-- services.SearchConfig (scraper.go:559-566). -/
structure SearchConfig where
  userID : String
  query : String
  topK : ℤ
  finalResults : ℤ
  useReranking : Bool
deriving Repr, DecidableEq

/-- services.SearchResult (scraper.go:568-574), the orchestrator's output. -/
structure Services.SearchResult (α : Type) where
  recommendations : List (Recommendation α)
  query : String
  totalCandidates : ℕ
  filteredCount : ℕ
deriving Repr, DecidableEq

/-- The effectful dependencies of VibeSearchService (scraper.go fields db,
embedder, vectorStore, llmClient), as pure functions describing what each
call returns during the run under verification.  `vectors` is the entry
sequence the vector store's map iteration produces, `mediaTable` the rows of
the media table the hidden-gems SQL query ranges over. -/
structure Env (α : Type) where
  embed : String → Except String Vec
  getSeenMediaIDs : String → Except String (Finset String)
  getMedia : String → Option Media
  getEmbedding : String → Except String (Option Vec)
  vectors : List (String × Vec)
  mediaTable : List Media
  sim : Vec → Vec → α
  llmClient : Option (String → List (RerankCandidate α) → Except String (List RerankResult))

/-- Step 4 of Search (scraper.go:614-625): hydrate candidates with their media
record, silently skipping ids the database cannot resolve. -/
def hydrateCandidates {α : Type} (getMedia : String → Option Media)
    (candidates : List (SearchResult α)) : List (RerankCandidate α) :=
  candidates.filterMap (fun c => (getMedia c.mediaID).map (fun m => ⟨m, c.similarity⟩))

/-- The similarity-order loop shared by the judge-failure branch
(scraper.go:635-645, label "Vibe match based on: ") and the no-reranking branch
(scraper.go:688-698, label "Vibe match: "): take candidates positionally while
the index is below finalResults, rank i+1.  `n` counts the remaining slots
(finalResults − i), `rank` is i+1. -/
def fallbackRecs {α : Type} (lbl : String) : ℤ → ℤ → List (RerankCandidate α) →
    List (Recommendation α)
  | _, _, [] => []
  | n, rank, c :: cs =>
    if n ≤ 0 then []
    else ⟨c.media, c.vibeScore, lbl ++ c.media.vibeProfile, rank⟩ ::
      fallbackRecs lbl (n - 1) (rank + 1) cs

/-- Lookup in the mediaMap built at scraper.go:648-651: a Go map populated by
insertion, so on duplicate candidate ids the last insertion wins. -/
def mediaMapLookup {α : Type} (cands : List (RerankCandidate α)) (id : String) :
    Option (RerankCandidate α) :=
  cands.reverse.find? (fun c => c.media.id == id)

/-- The verdict loop (scraper.go:653-662): verdicts whose id resolves in the
mediaMap become recommendations carrying the judge's explanation and the
judge's rank; unresolved verdicts are dropped silently. -/
def verdictRecs {α : Type} (cands : List (RerankCandidate α))
    (reranked : List RerankResult) : List (Recommendation α) :=
  reranked.filterMap (fun r =>
    (mediaMapLookup cands r.mediaID).map
      (fun c => ⟨c.media, c.vibeScore, r.explanation, r.rank⟩))

/-- The fill loop (scraper.go:671-683): walk the hydrated candidates, stop once
finalResults recommendations exist, skip already-ranked ids (rankedIDs is the
set built once at scraper.go:666-669), append the rest with rank len+1. -/
def fillLoop {α : Type} (finalResults : ℤ) (rankedIDs : List String)
    (recs : List (Recommendation α)) : List (RerankCandidate α) →
    List (Recommendation α)
  | [] => recs
  | c :: cs =>
    if finalResults ≤ (recs.length : ℤ) then recs
    else if rankedIDs.contains c.media.id then fillLoop finalResults rankedIDs recs cs
    else fillLoop finalResults rankedIDs
      (recs ++ [⟨c.media, c.vibeScore, "Similar vibe: " ++ c.media.vibeProfile,
        (recs.length : ℤ) + 1⟩]) cs

/-- The judge-success branch (scraper.go:647-684): verdict recommendations,
then, when fewer than finalResults, the fill loop over the candidates. -/
def judgeRecs {α : Type} (finalResults : ℤ) (cands : List (RerankCandidate α))
    (reranked : List RerankResult) : List (Recommendation α) :=
  let recs := verdictRecs cands reranked
  if (recs.length : ℤ) < finalResults then
    fillLoop finalResults (recs.map (fun r => r.media.id)) recs cands
  else recs

/-- Step 5 of Search (scraper.go:627-699): the three ranking branches.  The
branch condition is the source's `config.UseReranking && s.llmClient != nil &&
len(rerankCandidates) > 0`; when it fails the no-reranking loop runs. -/
def rankingStep {α : Type} (llmClient : Option (String → List (RerankCandidate α) →
      Except String (List RerankResult))) (useReranking : Bool) (query : String)
    (finalResults : ℤ) (cands : List (RerankCandidate α)) : List (Recommendation α) :=
  match llmClient with
  | some rerankByVibe =>
    if useReranking && !cands.isEmpty then
      match rerankByVibe query cands with
      | .error _ => fallbackRecs "Vibe match based on: " finalResults 1 cands
      | .ok reranked => judgeRecs finalResults cands reranked
    else fallbackRecs "Vibe match: " finalResults 1 cands
  | none => fallbackRecs "Vibe match: " finalResults 1 cands

/-- VibeSearchService.Search (scraper.go:581-707): defaults, query embedding,
seen-id lookup, vector search with anti-join, early return on no candidates,
hydration, then the three ranking branches. -/
def VibeSearchService.Search {α : Type} [LinearOrder α] (env : Env α)
    (config : SearchConfig) : Except String (Services.SearchResult α) :=
  let topK := if config.topK ≤ 0 then 20 else config.topK
  let finalResults := if config.finalResults ≤ 0 then 10 else config.finalResults
  match env.embed config.query with
  | .error e => .error ("failed to embed query: " ++ e)
  | .ok queryEmbedding =>
    match env.getSeenMediaIDs config.userID with
    | .error e => .error ("failed to get seen media: " ++ e)
    | .ok seenIDs =>
      let candidates := VectorStore.Search env.sim env.vectors queryEmbedding
        topK.toNat seenIDs
      if candidates.isEmpty then
        .ok ⟨[], config.query, 0, seenIDs.card⟩
      else
        let rerankCandidates := hydrateCandidates env.getMedia candidates
        let recommendations := rankingStep env.llmClient config.useReranking
          config.query finalResults rerankCandidates
        .ok ⟨recommendations, config.query, candidates.length, seenIDs.card⟩

/-- The result loop of GetSimilarToMedia (scraper.go:732-747): positional index
`i` advances on every candidate, the loop stops at `limit`, candidates whose
media record cannot be fetched are skipped (leaving a gap in the ranks). -/
def mkSimilarRecs {α : Type} (getMedia : String → Option Media) :
    ℤ → ℤ → List (SearchResult α) → List (Recommendation α)
  | _, _, [] => []
  | limit, i, c :: cs =>
    if limit ≤ i then []
    else
      match getMedia c.mediaID with
      | none => mkSimilarRecs getMedia limit (i + 1) cs
      | some m =>
        ⟨m, c.similarity, "Similar vibe to source: " ++ m.vibeProfile, i + 1⟩ ::
          mkSimilarRecs getMedia limit (i + 1) cs

/-- VibeSearchService.GetSimilarToMedia (scraper.go:710-750): the source media
id is added to the exclusion set before the vector search (topK = limit*2). -/
def VibeSearchService.GetSimilarToMedia {α : Type} [LinearOrder α] (env : Env α)
    (userID mediaID : String) (limit : ℤ) :
    Except String (List (Recommendation α)) :=
  match env.getEmbedding mediaID with
  | .error e => .error ("failed to get source embedding: " ++ e)
  | .ok none => .error ("no embedding found for media " ++ mediaID)
  | .ok (some sourceEmbedding) =>
    match env.getSeenMediaIDs userID with
    | .error e => .error ("failed to get seen media: " ++ e)
    | .ok seen =>
      let seenIDs := insert mediaID seen
      let candidates := VectorStore.Search env.sim env.vectors sourceEmbedding
        (limit * 2).toNat seenIDs
      .ok (mkSimilarRecs env.getMedia limit 0 candidates)

/-- Eligibility predicate of the hidden-gems SQL query (scraper.go:768):
quality_score > popularity_score * 0.5. -/
def gemEligible (m : Media) : Bool :=
  decide (m.popularityScore * (1 / 2) < m.qualityScore)

/-- Ranking key of the hidden-gems SQL query (scraper.go:769):
quality_score − popularity_score * 0.3, ordered descending. -/
def gemKey (m : Media) : ℚ :=
  m.qualityScore - m.popularityScore * (3 / 10)

/-- Row sequence of the SQL query in GetHiddenGems (scraper.go:761-771) under
standard SQL semantics over `table`: anti-join against the user's seen rows,
the eligibility filter, ORDER BY the gem key descending (tie order is
unspecified in SQL; a comparison sort models it), LIMIT lim. -/
def hiddenGemsQuery (table : List Media) (seen : Finset String) (lim : ℕ) :
    List Media :=
  ((table.filter (fun m => decide (m.id ∉ seen) && gemEligible m)).insertionSort
    (fun a b => gemKey b ≤ gemKey a)).take lim

/-- The row-scanning loop of GetHiddenGems (scraper.go:778-788): keep a row
when its id is unseen and fewer than `limit` gems are collected so far. -/
def gemsLoop (seen : Finset String) (limit : ℤ) (gems : List Media) :
    List Media → List Media
  | [] => gems
  | m :: ms =>
    gemsLoop seen limit
      (if m.id ∉ seen ∧ (gems.length : ℤ) < limit then gems ++ [m] else gems) ms

/-- VibeSearchService.GetHiddenGems (scraper.go:753-791): seen-id lookup, the
SQL query with LIMIT limit*2, then the scanning loop. -/
def VibeSearchService.GetHiddenGems {α : Type} (env : Env α) (userID : String)
    (limit : ℤ) : Except String (List Media) :=
  match env.getSeenMediaIDs userID with
  | .error e => .error ("failed to get seen media: " ++ e)
  | .ok seenIDs =>
    let rows := hiddenGemsQuery env.mediaTable seenIDs (limit * 2).toNat
    .ok (gemsLoop seenIDs limit [] rows)

/-! ### Lemmas about VectorStore.Search -/

theorem mem_Search {α : Type} [LinearOrder α] {sim : Vec → Vec → α}
    {vectors : List (String × Vec)} {query : Vec} {topK : ℕ}
    {excludeIDs : Finset String} {r : SearchResult α}
    (h : r ∈ VectorStore.Search sim vectors query topK excludeIDs) :
    r.mediaID ∉ excludeIDs ∧ ∃ v, (r.mediaID, v) ∈ vectors ∧
      r.similarity = sim query v := by
  unfold VectorStore.Search at h
  split at h
  · exact absurd h (List.not_mem_nil r)
  · have h1 : r ∈ (((vectors.filter (fun e => decide (e.1 ∉ excludeIDs))).map
        (fun e => ⟨e.1, sim query e.2⟩)).insertionSort
        (fun r s => s.similarity ≤ r.similarity)) :=
      List.Sublist.mem h (List.take_sublist _ _)
    rw [List.mem_insertionSort] at h1
    obtain ⟨e, he, hmk⟩ := List.mem_map.1 h1
    obtain ⟨hev, hep⟩ := List.mem_filter.1 he
    cases r
    injection hmk with hm hs
    subst hm
    subst hs
    refine ⟨?_, e.2, ?_, rfl⟩
    · simpa using hep
    · simpa using hev

theorem length_Search_le {α : Type} [LinearOrder α] (sim : Vec → Vec → α)
    (vectors : List (String × Vec)) (query : Vec) (topK : ℕ)
    (excludeIDs : Finset String) :
    (VectorStore.Search sim vectors query topK excludeIDs).length ≤ topK := by
  unfold VectorStore.Search
  split
  · simp
  · simp [List.length_take]

theorem sorted_Search {α : Type} [LinearOrder α] (sim : Vec → Vec → α)
    (vectors : List (String × Vec)) (query : Vec) (topK : ℕ)
    (excludeIDs : Finset String) :
    List.Sorted (fun r s : SearchResult α => s.similarity ≤ r.similarity)
      (VectorStore.Search sim vectors query topK excludeIDs) := by
  haveI : IsTotal (SearchResult α) (fun r s => s.similarity ≤ r.similarity) :=
    ⟨fun a b => le_total _ _⟩
  haveI : IsTrans (SearchResult α) (fun r s => s.similarity ≤ r.similarity) :=
    ⟨fun _ _ _ h1 h2 => le_trans h2 h1⟩
  unfold VectorStore.Search
  split
  · exact List.sorted_nil
  · exact List.Pairwise.sublist (List.take_sublist _ _)
      (List.sorted_insertionSort _ _)

theorem Search_nil {α : Type} [LinearOrder α] (sim : Vec → Vec → α) (query : Vec)
    (topK : ℕ) (excludeIDs : Finset String) :
    VectorStore.Search sim [] query topK excludeIDs = [] := rfl

theorem nodup_Search_ids {α : Type} [LinearOrder α] {sim : Vec → Vec → α}
    {vectors : List (String × Vec)} (query : Vec) (topK : ℕ)
    (excludeIDs : Finset String) (hkeys : (vectors.map Prod.fst).Nodup) :
    ((VectorStore.Search sim vectors query topK excludeIDs).map
      (fun r => r.mediaID)).Nodup := by
  unfold VectorStore.Search
  split
  · simp
  · dsimp only
    rw [List.map_take]
    refine List.Nodup.sublist (List.take_sublist _ _) ?_
    have hperm :
        ((((vectors.filter (fun e => decide (e.1 ∉ excludeIDs))).map
          (fun e => (⟨e.1, sim query e.2⟩ : SearchResult α))).insertionSort
          (fun r s => s.similarity ≤ r.similarity)).map (fun r => r.mediaID)).Perm
        (((vectors.filter (fun e => decide (e.1 ∉ excludeIDs))).map
          (fun e => (⟨e.1, sim query e.2⟩ : SearchResult α))).map
          (fun r => r.mediaID)) :=
      (List.perm_insertionSort _ _).map _
    rw [hperm.nodup_iff, List.map_map]
    have hsub : (vectors.filter (fun e => decide (e.1 ∉ excludeIDs))).map
        ((fun r : SearchResult α => r.mediaID) ∘ (fun e => ⟨e.1, sim query e.2⟩))
        = (vectors.filter (fun e => decide (e.1 ∉ excludeIDs))).map Prod.fst := by
      simp [Function.comp]
    rw [hsub]
    exact hkeys.sublist (List.Sublist.map _ (List.filter_sublist _))

/-- When the scored candidates have pairwise-distinct similarities, the sorted
candidate list is strictly decreasing. -/
theorem strictSorted_insertionSort_of_nodup {α : Type} [LinearOrder α]
    (l : List (SearchResult α)) (hnd : (l.map (fun r => r.similarity)).Nodup) :
    (l.insertionSort (fun r s => s.similarity ≤ r.similarity)).Pairwise
      (fun a b : SearchResult α => b.similarity < a.similarity) := by
  haveI : IsTotal (SearchResult α) (fun r s => s.similarity ≤ r.similarity) :=
    ⟨fun a b => le_total _ _⟩
  haveI : IsTrans (SearchResult α) (fun r s => s.similarity ≤ r.similarity) :=
    ⟨fun _ _ _ h1 h2 => le_trans h2 h1⟩
  have hsorted := List.sorted_insertionSort
    (fun r s : SearchResult α => s.similarity ≤ r.similarity) l
  have hndSorted : ((l.insertionSort (fun r s => s.similarity ≤ r.similarity)).map
      (fun r => r.similarity)).Nodup :=
    (((List.perm_insertionSort _ l).map _).nodup_iff).2 hnd
  have hne := List.pairwise_map.1 hndSorted
  exact (List.Pairwise.and hsorted hne).imp
    (fun h => lt_of_le_of_ne h.1 (Ne.symm h.2))

/-- C5 amended: if two entry sequences enumerate the same id→vector map (they
are permutations of each other) and the non-excluded candidates get
pairwise-distinct similarity scores, the two searches return identical result
sequences. -/
theorem C5_determinism_amended {α : Type} [LinearOrder α] (sim : Vec → Vec → α)
    {v1 v2 : List (String × Vec)} (query : Vec) (topK : ℕ)
    (excludeIDs : Finset String) (hperm : v1.Perm v2)
    (hnd : ((v1.filter (fun e => decide (e.1 ∉ excludeIDs))).map
      (fun e => sim query e.2)).Nodup) :
    VectorStore.Search sim v1 query topK excludeIDs =
      VectorStore.Search sim v2 query topK excludeIDs := by
  unfold VectorStore.Search
  by_cases hv : v1.isEmpty
  · have hv1 : v1 = [] := List.isEmpty_iff.1 hv
    subst hv1
    have hv2 : v2 = [] := hperm.symm.eq_nil
    rw [if_pos hv, if_pos (by simp [hv2])]
  · have hv2 : ¬ v2.isEmpty = true := by
      intro h
      apply hv
      have h2 : v2 = [] := List.isEmpty_iff.1 h
      subst h2
      rw [List.isEmpty_iff]
      exact hperm.eq_nil
    rw [if_neg hv, if_neg hv2]
    dsimp only
    have hpres : ((v1.filter (fun e => decide (e.1 ∉ excludeIDs))).map
        (fun e => (⟨e.1, sim query e.2⟩ : SearchResult α))).Perm
        ((v2.filter (fun e => decide (e.1 ∉ excludeIDs))).map
        (fun e => (⟨e.1, sim query e.2⟩ : SearchResult α))) :=
      (hperm.filter _).map _
    have hnd1 : (((v1.filter (fun e => decide (e.1 ∉ excludeIDs))).map
        (fun e => (⟨e.1, sim query e.2⟩ : SearchResult α))).map
        (fun r => r.similarity)).Nodup := by
      rw [List.map_map]
      exact hnd
    have hnd2 : (((v2.filter (fun e => decide (e.1 ∉ excludeIDs))).map
        (fun e => (⟨e.1, sim query e.2⟩ : SearchResult α))).map
        (fun r => r.similarity)).Nodup := ((hpres.map _).nodup_iff).1 hnd1
    have hs1 := strictSorted_insertionSort_of_nodup _ hnd1
    have hs2 := strictSorted_insertionSort_of_nodup _ hnd2
    haveI : IsAntisymm (SearchResult α)
        (fun a b : SearchResult α => b.similarity < a.similarity) :=
      ⟨fun a b h1 h2 => absurd (lt_trans h1 h2) (lt_irrefl _)⟩
    have heq := List.eq_of_perm_of_sorted
      (((List.perm_insertionSort _ _).trans hpres).trans
        (List.perm_insertionSort _ _).symm) hs1 hs2
    rw [heq]

/-! ### Lemmas about the ranking branches -/

/-- The rank fields, read in list order, are r0, r0+1, r0+2, ... -/
def RanksFrom {α : Type} : ℤ → List (Recommendation α) → Prop
  | _, [] => True
  | r0, r :: rs => r.rank = r0 ∧ RanksFrom (r0 + 1) rs

/-- The rank fields are exactly the contiguous sequence 1..n. -/
def RanksPositional {α : Type} (recs : List (Recommendation α)) : Prop :=
  RanksFrom 1 recs

/-- No media item appears twice in the list. -/
def NoDupMedia {α : Type} (recs : List (Recommendation α)) : Prop :=
  (recs.map (fun r => r.media.id)).Nodup

theorem mem_fallbackRecs {α : Type} {lbl : String} {cs : List (RerankCandidate α)} :
    ∀ {n rank : ℤ} {r : Recommendation α},
      r ∈ fallbackRecs lbl n rank cs → ∃ c ∈ cs, r.media = c.media := by
  induction cs with
  | nil => intro n rank r h; exact absurd h (List.not_mem_nil r)
  | cons c cs ih =>
    intro n rank r h
    rw [fallbackRecs] at h
    split at h
    · exact absurd h (List.not_mem_nil r)
    · rcases List.mem_cons.1 h with h1 | h2
      · exact ⟨c, List.mem_cons_self _ _, by rw [h1]⟩
      · obtain ⟨c2, hc2, he⟩ := ih h2
        exact ⟨c2, List.mem_cons_of_mem _ hc2, he⟩

theorem mediaMapLookup_some {α : Type} {cands : List (RerankCandidate α)}
    {id : String} {c : RerankCandidate α} (h : mediaMapLookup cands id = some c) :
    c ∈ cands ∧ c.media.id = id := by
  unfold mediaMapLookup at h
  refine ⟨List.mem_reverse.1 (List.mem_of_find?_eq_some h), ?_⟩
  have := List.find?_some h
  simpa using this

theorem mem_verdictRecs {α : Type} {cands : List (RerankCandidate α)}
    {reranked : List RerankResult} {r : Recommendation α}
    (h : r ∈ verdictRecs cands reranked) : ∃ c ∈ cands, r.media = c.media := by
  unfold verdictRecs at h
  obtain ⟨v, hv, hsome⟩ := List.mem_filterMap.1 h
  cases hlk : mediaMapLookup cands v.mediaID with
  | none => rw [hlk] at hsome; exact absurd hsome (by simp)
  | some c =>
    rw [hlk] at hsome
    obtain ⟨hc, _⟩ := mediaMapLookup_some hlk
    refine ⟨c, hc, ?_⟩
    have := Option.some.inj hsome
    rw [← this]

theorem mem_fillLoop {α : Type} {n : ℤ} {ids : List String} :
    ∀ {cs : List (RerankCandidate α)} {recs : List (Recommendation α)}
      {r : Recommendation α}, r ∈ fillLoop n ids recs cs →
      r ∈ recs ∨ ∃ c ∈ cs, r.media = c.media := by
  intro cs
  induction cs with
  | nil => intro recs r h; exact Or.inl h
  | cons c cs ih =>
    intro recs r h
    rw [fillLoop] at h
    split at h
    · exact Or.inl h
    · split at h
      · rcases ih h with h1 | ⟨c2, hc2, he⟩
        · exact Or.inl h1
        · exact Or.inr ⟨c2, List.mem_cons_of_mem _ hc2, he⟩
      · rcases ih h with h1 | ⟨c2, hc2, he⟩
        · rcases List.mem_append.1 h1 with h2 | h3
          · exact Or.inl h2
          · refine Or.inr ⟨c, List.mem_cons_self _ _, ?_⟩
            have : r = ⟨c.media, c.vibeScore,
                "Similar vibe: " ++ c.media.vibeProfile, (recs.length : ℤ) + 1⟩ := by
              simpa using h3
            rw [this]
        · exact Or.inr ⟨c2, List.mem_cons_of_mem _ hc2, he⟩

theorem mem_judgeRecs {α : Type} {n : ℤ} {cands : List (RerankCandidate α)}
    {reranked : List RerankResult} {r : Recommendation α}
    (h : r ∈ judgeRecs n cands reranked) : ∃ c ∈ cands, r.media = c.media := by
  unfold judgeRecs at h
  dsimp only at h
  split at h
  · rcases mem_fillLoop h with h1 | h2
    · exact mem_verdictRecs h1
    · exact h2
  · exact mem_verdictRecs h

theorem mem_hydrateCandidates {α : Type} {getMedia : String → Option Media}
    {scands : List (SearchResult α)} {c : RerankCandidate α}
    (h : c ∈ hydrateCandidates getMedia scands) :
    ∃ s ∈ scands, getMedia s.mediaID = some c.media := by
  unfold hydrateCandidates at h
  obtain ⟨s, hs, hsome⟩ := List.mem_filterMap.1 h
  cases hg : getMedia s.mediaID with
  | none => rw [hg] at hsome; exact absurd hsome (by simp)
  | some m =>
    rw [hg] at hsome
    have := Option.some.inj hsome
    refine ⟨s, hs, ?_⟩
    rw [hg, ← this]

theorem mem_mkSimilarRecs {α : Type} {getMedia : String → Option Media} :
    ∀ {cs : List (SearchResult α)} {limit i : ℤ} {r : Recommendation α},
      r ∈ mkSimilarRecs getMedia limit i cs →
      ∃ c ∈ cs, getMedia c.mediaID = some r.media := by
  intro cs
  induction cs with
  | nil => intro limit i r h; exact absurd h (List.not_mem_nil r)
  | cons c cs ih =>
    intro limit i r h
    rw [mkSimilarRecs] at h
    split at h
    · exact absurd h (List.not_mem_nil r)
    · split at h
      · obtain ⟨c2, hc2, he⟩ := ih h
        exact ⟨c2, List.mem_cons_of_mem _ hc2, he⟩
      · rcases List.mem_cons.1 h with h1 | h2
        · subst h1
          next m hm => exact ⟨c, List.mem_cons_self _ _, hm⟩
        · obtain ⟨c2, hc2, he⟩ := ih h2
          exact ⟨c2, List.mem_cons_of_mem _ hc2, he⟩

theorem mem_rankingStep {α : Type} {llmClient : Option (String →
      List (RerankCandidate α) → Except String (List RerankResult))}
    {useReranking : Bool} {query : String} {finalResults : ℤ}
    {cands : List (RerankCandidate α)} {r : Recommendation α}
    (h : r ∈ rankingStep llmClient useReranking query finalResults cands) :
    ∃ c ∈ cands, r.media = c.media := by
  unfold rankingStep at h
  rcases llmClient with _ | judge
  · exact mem_fallbackRecs h
  · dsimp only at h
    split at h
    · split at h
      · exact mem_fallbackRecs h
      · exact mem_judgeRecs h
    · exact mem_fallbackRecs h

/-- Anatomy of a successful Search run with a non-empty candidate list. -/
theorem Search_ok_anatomy {α : Type} [LinearOrder α] {env : Env α}
    {config : SearchConfig} {qv : Vec} {seen : Finset String}
    {res : Services.SearchResult α}
    (hemb : env.embed config.query = .ok qv)
    (hseen : env.getSeenMediaIDs config.userID = .ok seen)
    (hres : VibeSearchService.Search env config = .ok res) :
    (VectorStore.Search env.sim env.vectors qv
        (if config.topK ≤ 0 then 20 else config.topK).toNat seen = [] ∧
      res = ⟨[], config.query, 0, seen.card⟩) ∨
    (VectorStore.Search env.sim env.vectors qv
        (if config.topK ≤ 0 then 20 else config.topK).toNat seen ≠ [] ∧
      res = ⟨rankingStep env.llmClient config.useReranking config.query
          (if config.finalResults ≤ 0 then 10 else config.finalResults)
          (hydrateCandidates env.getMedia
            (VectorStore.Search env.sim env.vectors qv
              (if config.topK ≤ 0 then 20 else config.topK).toNat seen)),
        config.query,
        (VectorStore.Search env.sim env.vectors qv
          (if config.topK ≤ 0 then 20 else config.topK).toNat seen).length,
        seen.card⟩) := by
  unfold VibeSearchService.Search at hres
  rw [hemb, hseen] at hres
  dsimp only at hres
  by_cases hc : (VectorStore.Search env.sim env.vectors qv
      (if config.topK ≤ 0 then 20 else config.topK).toNat seen).isEmpty = true
  · rw [if_pos hc] at hres
    left
    exact ⟨List.isEmpty_iff.1 hc, (Except.ok.inj hres).symm⟩
  · rw [if_neg hc] at hres
    right
    refine ⟨?_, (Except.ok.inj hres).symm⟩
    intro hnil
    exact hc (by simp [hnil])

/-! ### C1: exclusion invariant -/

/-- C1: for every Search request, and every GetSimilarToMedia request (whose
source media id is added to the exclusion set), no media id in the exclusion
set appears in the returned recommendation list.  The media store is
well-formed: fetching an id returns a record carrying that id. -/
theorem C1_exclusion_invariant {α : Type} [LinearOrder α] (env : Env α)
    (config : SearchConfig) (mediaID : String) (limit : ℤ) (seen : Finset String)
    (hwf : ∀ id m, env.getMedia id = some m → m.id = id)
    (hseen : env.getSeenMediaIDs config.userID = .ok seen) :
    (∀ res, VibeSearchService.Search env config = .ok res →
      ∀ r ∈ res.recommendations, r.media.id ∉ seen) ∧
    (∀ recs, VibeSearchService.GetSimilarToMedia env config.userID mediaID limit
        = .ok recs →
      ∀ r ∈ recs, r.media.id ∉ seen ∧ r.media.id ≠ mediaID) := by
  constructor
  · intro res hres r hr
    cases hemb : env.embed config.query with
    | error e =>
      unfold VibeSearchService.Search at hres
      rw [hemb] at hres
      exact absurd hres (by simp)
    | ok qv =>
      rcases Search_ok_anatomy hemb hseen hres with ⟨_, hres2⟩ | ⟨_, hres2⟩
      · rw [hres2] at hr
        exact absurd hr (List.not_mem_nil r)
      · rw [hres2] at hr
        dsimp only at hr
        obtain ⟨c, hc, hmedia⟩ := mem_rankingStep hr
        obtain ⟨s, hs, hgs⟩ := mem_hydrateCandidates hc
        have hid : c.media.id = s.mediaID := hwf _ _ hgs
        have hnotex := (mem_Search hs).1
        rw [hmedia, hid]
        exact hnotex
  · intro recs hrecs r hr
    unfold VibeSearchService.GetSimilarToMedia at hrecs
    cases hge : env.getEmbedding mediaID with
    | error e => rw [hge] at hrecs; exact absurd hrecs (by simp)
    | ok osrc =>
      rw [hge] at hrecs
      cases osrc with
      | none => exact absurd hrecs (by simp)
      | some src =>
        rw [hseen] at hrecs
        dsimp only at hrecs
        have h2 := Except.ok.inj hrecs
        rw [← h2] at hr
        obtain ⟨c, hc, hg⟩ := mem_mkSimilarRecs hr
        have hid : r.media.id = c.mediaID := (hwf _ _ hg).symm ▸ rfl
        have hnot := (mem_Search hc).1
        rw [hid] at *
        constructor
        · intro hmem
          exact hnot (Finset.mem_insert_of_mem hmem)
        · intro heq
          exact hnot (by rw [heq]; exact Finset.mem_insert_self _ _)

instance instDecEqExcept {E X : Type} [DecidableEq E] [DecidableEq X] :
    DecidableEq (Except E X) := fun a b =>
  match a, b with
  | .error e1, .error e2 =>
    if h : e1 = e2 then isTrue (by rw [h])
    else isFalse (fun hc => h (Except.error.inj hc))
  | .ok x1, .ok x2 =>
    if h : x1 = x2 then isTrue (by rw [h])
    else isFalse (fun hc => h (Except.ok.inj hc))
  | .error _, .ok _ => isFalse (fun hc => Except.noConfusion hc)
  | .ok _, .error _ => isFalse (fun hc => Except.noConfusion hc)

/-- Concrete environment exercising the pipeline: two stored vectors, one of
them already seen by the user.  Scores are naturals so that concrete runs
evaluate by decide. -/
def envW : Env ℕ where
  embed := fun _ => .ok [1]
  getSeenMediaIDs := fun _ => .ok {"b"}
  getMedia := fun id => some ⟨id, "t", "p", 0, 0⟩
  getEmbedding := fun _ => .ok (some [1])
  vectors := [("a", [1]), ("b", [1])]
  mediaTable := []
  sim := fun _ v => v.length
  llmClient := none

def cfgW : SearchConfig := ⟨"u", "q", 1, 1, false⟩

theorem C1_exclusion_invariant_witness :
    (("a" : String) ∉ ({"b"} : Finset String)) ∧ ("a" : String) ≠ "b" := by
  have h := C1_exclusion_invariant envW cfgW "b" 1 {"b"}
    (fun id m hm => by injection hm with h3; subst h3; rfl) rfl
  refine ⟨?_, ?_⟩
  · exact h.1 ⟨[⟨⟨"a", "t", "p", 0, 0⟩, 1, "Vibe match: p", 1⟩], "q", 1, 1⟩ (by decide)
      ⟨⟨"a", "t", "p", 0, 0⟩, 1, "Vibe match: p", 1⟩ (by simp)
  · exact (h.2 [⟨⟨"a", "t", "p", 0, 0⟩, 1, "Similar vibe to source: p", 1⟩] (by decide)
      ⟨⟨"a", "t", "p", 0, 0⟩, 1, "Similar vibe to source: p", 1⟩ (by simp)).2

theorem RanksFrom_append {α : Type} :
    ∀ {xs ys : List (Recommendation α)} {r0 : ℤ},
      RanksFrom r0 xs → RanksFrom (r0 + xs.length) ys → RanksFrom r0 (xs ++ ys) := by
  intro xs
  induction xs with
  | nil => intro ys r0 _ hy; simpa using hy
  | cons x xs ih =>
    intro ys r0 hx hy
    refine ⟨hx.1, ih hx.2 ?_⟩
    have : r0 + 1 + (xs.length : ℤ) = r0 + ((x :: xs).length : ℤ) := by
      simp [List.length_cons]
      ring
    rw [this]
    exact hy

theorem RanksFrom_fallbackRecs {α : Type} (lbl : String) :
    ∀ (cs : List (RerankCandidate α)) (n r0 : ℤ),
      RanksFrom r0 (fallbackRecs lbl n r0 cs) := by
  intro cs
  induction cs with
  | nil => intro n r0; exact trivial
  | cons c cs ih =>
    intro n r0
    rw [fallbackRecs]
    split
    · exact trivial
    · exact ⟨rfl, ih (n - 1) (r0 + 1)⟩

theorem fallbackRecs_ids_sublist {α : Type} (lbl : String) :
    ∀ (cs : List (RerankCandidate α)) (n r0 : ℤ),
      ((fallbackRecs lbl n r0 cs).map (fun r => r.media.id)).Sublist
        (cs.map (fun c => c.media.id)) := by
  intro cs
  induction cs with
  | nil => intro n r0; simp [fallbackRecs]
  | cons c cs ih =>
    intro n r0
    rw [fallbackRecs]
    split
    · simp
    · exact List.Sublist.cons₂ _ (ih (n - 1) (r0 + 1))

/-- Rank-annotated tail of the fill loop: candidates appended with ranks
start+1, start+2, ... and the generic explanation. -/
def rankFrom {α : Type} (start : ℕ) : List (RerankCandidate α) → List (Recommendation α)
  | [] => []
  | c :: cs =>
    ⟨c.media, c.vibeScore, "Similar vibe: " ++ c.media.vibeProfile, (start : ℤ) + 1⟩ ::
      rankFrom (start + 1) cs

theorem RanksFrom_rankFrom {α : Type} :
    ∀ (cs : List (RerankCandidate α)) (start : ℕ),
      RanksFrom ((start : ℤ) + 1) (rankFrom start cs) := by
  intro cs
  induction cs with
  | nil => intro start; exact trivial
  | cons c cs ih =>
    intro start
    refine ⟨rfl, ?_⟩
    have h := ih (start + 1)
    have : ((start + 1 : ℕ) : ℤ) + 1 = (start : ℤ) + 1 + 1 := by push_cast; ring
    rw [this] at h
    exact h

theorem rankFrom_ids {α : Type} :
    ∀ (cs : List (RerankCandidate α)) (start : ℕ),
      (rankFrom start cs).map (fun r => r.media.id) = cs.map (fun c => c.media.id) := by
  intro cs
  induction cs with
  | nil => intro start; rfl
  | cons c cs ih => intro start; simpa [rankFrom] using ih (start + 1)

theorem rankFrom_media {α : Type} :
    ∀ (cs : List (RerankCandidate α)) (start : ℕ),
      (rankFrom start cs).map (fun r => (r.media, r.vibeScore)) =
        cs.map (fun c => (c.media, c.vibeScore)) := by
  intro cs
  induction cs with
  | nil => intro start; rfl
  | cons c cs ih => intro start; simpa [rankFrom] using ih (start + 1)

/-- Closed form of the fill loop: the output is the input recommendations
followed by the unranked candidates, in order, truncated to the remaining
slots, with ranks continuing from the input length. -/
theorem fillLoop_eq {α : Type} (n : ℤ) (ids : List String) :
    ∀ (cs : List (RerankCandidate α)) (recs : List (Recommendation α)),
      fillLoop n ids recs cs = recs ++
        rankFrom recs.length
          ((cs.filter (fun c => !ids.contains c.media.id)).take
            (n - recs.length).toNat) := by
  intro cs
  induction cs with
  | nil => intro recs; simp [fillLoop, rankFrom]
  | cons c cs ih =>
    intro recs
    rw [fillLoop]
    by_cases h1 : n ≤ (recs.length : ℤ)
    · rw [if_pos h1]
      have h0 : (n - (recs.length : ℤ)).toNat = 0 := by omega
      simp [h0, rankFrom]
    · rw [if_neg h1]
      by_cases h2 : ids.contains c.media.id
      · rw [if_pos h2]
        rw [ih recs]
        have hpc : ¬ ((fun x : RerankCandidate α =>
            !ids.contains x.media.id) c = true) := by
          show ¬ ((!ids.contains c.media.id) = true)
          rw [h2]
          decide
        rw [@List.filter_cons_of_neg (RerankCandidate α)
          (fun x => !ids.contains x.media.id) c cs hpc]
      · rw [if_neg h2]
        rw [ih]
        have h2f : ids.contains c.media.id = false := by
          revert h2
          cases ids.contains c.media.id <;> simp
        have hpc : ((fun x : RerankCandidate α =>
            !ids.contains x.media.id) c) = true := by
          show (!ids.contains c.media.id) = true
          rw [h2f]
          decide
        rw [@List.filter_cons_of_pos (RerankCandidate α)
          (fun x => !ids.contains x.media.id) c cs hpc]
        have hlen : (recs ++ [(⟨c.media, c.vibeScore,
            "Similar vibe: " ++ c.media.vibeProfile, (recs.length : ℤ) + 1⟩ :
              Recommendation α)]).length = recs.length + 1 := by
          simp
        rw [hlen]
        have hm : (n - (recs.length : ℤ)).toNat =
            (n - ((recs.length : ℤ) + 1)).toNat + 1 := by omega
        rw [hm, List.take_succ_cons, rankFrom, List.append_assoc]
        have hcast : ((recs.length + 1 : ℕ) : ℤ) = (recs.length : ℤ) + 1 := by
          push_cast
          ring
        rw [hcast]
        simp [List.cons_append]

/-- Closed form of the judge-success branch: the matched verdicts, then the
unranked candidates in similarity order until finalResults is reached, ranked
consecutively after the verdicts, with the generic explanation. -/
theorem judgeRecs_eq {α : Type} (n : ℤ) (cands : List (RerankCandidate α))
    (reranked : List RerankResult) :
    judgeRecs n cands reranked =
      verdictRecs cands reranked ++
        rankFrom (verdictRecs cands reranked).length
          ((cands.filter (fun c =>
            !((verdictRecs cands reranked).map (fun r => r.media.id)).contains
              c.media.id)).take
            (n - ((verdictRecs cands reranked).length : ℤ)).toNat) := by
  unfold judgeRecs
  dsimp only
  split
  · exact fillLoop_eq n _ cands (verdictRecs cands reranked)
  · next h =>
    have h0 : (n - ((verdictRecs cands reranked).length : ℤ)).toNat = 0 := by omega
    simp [h0, rankFrom]

theorem nodup_fallbackRecs {α : Type} (lbl : String)
    (cs : List (RerankCandidate α)) (n r0 : ℤ)
    (h : (cs.map (fun c => c.media.id)).Nodup) :
    NoDupMedia (fallbackRecs lbl n r0 cs) :=
  List.Nodup.sublist (fallbackRecs_ids_sublist lbl cs n r0) h

theorem nodup_judgeRecs {α : Type} (n : ℤ) (cands : List (RerankCandidate α))
    (reranked : List RerankResult)
    (hvr : NoDupMedia (verdictRecs cands reranked))
    (hc : (cands.map (fun c => c.media.id)).Nodup) :
    NoDupMedia (judgeRecs n cands reranked) := by
  rw [judgeRecs_eq]
  unfold NoDupMedia at *
  rw [List.map_append, rankFrom_ids, List.nodup_append]
  refine ⟨hvr, ?_, ?_⟩
  · refine List.Nodup.sublist ?_ hc
    exact List.Sublist.map _ ((List.take_sublist _ _).trans (List.filter_sublist _))
  · intro a ha1 ha2
    obtain ⟨c, hcmem, hcid⟩ := List.mem_map.1 ha2
    have hctake := List.Sublist.mem hcmem (List.take_sublist _ _)
    obtain ⟨_, hp⟩ := List.mem_filter.1 hctake
    rw [hcid] at hp
    have hmem2 : List.elem a ((verdictRecs cands reranked).map
        (fun r => r.media.id)) = true := List.elem_iff.2 ha1
    rw [show ((verdictRecs cands reranked).map (fun r => r.media.id)).contains a
      = List.elem a ((verdictRecs cands reranked).map (fun r => r.media.id)) from rfl]
      at hp
    rw [hmem2] at hp
    exact absurd hp (by decide)

/-- Verdicts whose id does not resolve in the candidate set contribute
nothing: the verdict recommendations only depend on the resolvable verdicts. -/
theorem verdictRecs_filter {α : Type} (cands : List (RerankCandidate α)) :
    ∀ rr : List RerankResult, verdictRecs cands rr =
      verdictRecs cands
        (rr.filter (fun r => (mediaMapLookup cands r.mediaID).isSome)) := by
  intro rr
  induction rr with
  | nil => rfl
  | cons r rr ih =>
    unfold verdictRecs at ih ⊢
    rw [List.filter_cons]
    cases hlk : mediaMapLookup cands r.mediaID with
    | none =>
      rw [List.filterMap_cons, hlk]
      simp only [hlk, Option.isSome_none, Bool.false_eq_true, if_false]
      exact ih
    | some c =>
      rw [List.filterMap_cons, hlk]
      simp only [hlk, Option.isSome_some, if_true]
      rw [List.filterMap_cons, hlk]
      rw [ih]

theorem hydrate_ids_sublist {α : Type} (gm : String → Option Media)
    (hwf : ∀ id m, gm id = some m → m.id = id) :
    ∀ scands : List (SearchResult α),
      ((hydrateCandidates gm scands).map (fun c => c.media.id)).Sublist
        (scands.map (fun s => s.mediaID)) := by
  intro scands
  induction scands with
  | nil => simp [hydrateCandidates]
  | cons s ss ih =>
    unfold hydrateCandidates at ih ⊢
    rw [List.filterMap_cons]
    cases hg : gm s.mediaID with
    | none =>
      rw [List.map_cons]
      exact List.Sublist.cons _ ih
    | some m =>
      have hid := hwf _ _ hg
      dsimp only [Option.map]
      rw [List.map_cons, List.map_cons]
      dsimp only
      rw [hid]
      exact List.Sublist.cons₂ _ ih

/-! ### C2: rank contiguity and duplicate freedom -/

/-- Environment whose judge answers with a verdict carrying rank 5. -/
def envC2 : Env ℕ :=
  { envW with llmClient := some (fun _ _ => .ok [⟨"a", 5, "x"⟩]) }

def cfgC2 : SearchConfig := ⟨"u", "q", 1, 1, true⟩

/-- C2 counterexample: with the judge enabled, the returned rank values are the
judge's own rank fields; a verdict ranked 5 yields the one-element list with
rank 5, not the contiguous sequence starting at 1. -/
theorem C2_rank_contiguity_counterexample :
    VibeSearchService.Search envC2 cfgC2 =
      .ok ⟨[⟨⟨"a", "t", "p", 0, 0⟩, 1, "x", 5⟩], "q", 1, 1⟩ ∧
    ¬ RanksPositional ([⟨⟨"a", "t", "p", 0, 0⟩, 1, "x", 5⟩] :
      List (Recommendation ℕ)) := by
  constructor
  · decide
  · intro h
    exact absurd h.1 (by decide)

/-- C2 amended: in the judge-disabled and judge-failure branches the ranks are
unconditionally 1..n with no repeated media; in the judge-success branch the
same holds provided the verdicts that resolve against the candidate set carry
ranks exactly 1..k in order and pairwise-distinct media ids. -/
theorem C2_rank_contiguity_amended {α : Type} [LinearOrder α] (env : Env α)
    (config : SearchConfig) (res : Services.SearchResult α)
    (hwf : ∀ id m, env.getMedia id = some m → m.id = id)
    (hkeys : (env.vectors.map Prod.fst).Nodup)
    (hjudge : ∀ judge cands rr, env.llmClient = some judge →
      judge config.query cands = .ok rr →
      RanksPositional (verdictRecs cands rr) ∧ NoDupMedia (verdictRecs cands rr))
    (hres : VibeSearchService.Search env config = .ok res) :
    RanksPositional res.recommendations ∧ NoDupMedia res.recommendations := by
  cases hemb : env.embed config.query with
  | error e =>
    unfold VibeSearchService.Search at hres
    rw [hemb] at hres
    exact absurd hres (by simp)
  | ok qv =>
  cases hseen : env.getSeenMediaIDs config.userID with
  | error e =>
    unfold VibeSearchService.Search at hres
    rw [hemb, hseen] at hres
    exact absurd hres (by simp)
  | ok seen =>
  rcases Search_ok_anatomy hemb hseen hres with ⟨_, hres2⟩ | ⟨_, hres2⟩
  · rw [hres2]
    exact ⟨trivial, List.nodup_nil⟩
  · rw [hres2]
    dsimp only
    have hydNodup : ((hydrateCandidates env.getMedia
        (VectorStore.Search env.sim env.vectors qv
          (if config.topK ≤ 0 then 20 else config.topK).toNat seen)).map
        (fun c => c.media.id)).Nodup :=
      List.Nodup.sublist (hydrate_ids_sublist env.getMedia hwf _)
        (nodup_Search_ids qv _ seen hkeys)
    set cands := hydrateCandidates env.getMedia
      (VectorStore.Search env.sim env.vectors qv
        (if config.topK ≤ 0 then 20 else config.topK).toNat seen) with hcands
    unfold rankingStep
    cases hllm : env.llmClient with
    | none =>
      exact ⟨RanksFrom_fallbackRecs _ cands _ 1,
        nodup_fallbackRecs _ cands _ 1 hydNodup⟩
    | some judge =>
      dsimp only
      split
      · cases hjr : judge config.query cands with
        | error e =>
          exact ⟨RanksFrom_fallbackRecs _ cands _ 1,
            nodup_fallbackRecs _ cands _ 1 hydNodup⟩
        | ok rr =>
          obtain ⟨hvrRanks, hvrNodup⟩ := hjudge judge cands rr hllm hjr
          dsimp only
          constructor
          · rw [judgeRecs_eq]
            refine RanksFrom_append hvrRanks ?_
            have h := RanksFrom_rankFrom
              ((cands.filter (fun c =>
                !((verdictRecs cands rr).map (fun r => r.media.id)).contains
                  c.media.id)).take
                ((if config.finalResults ≤ 0 then 10 else config.finalResults) -
                  ((verdictRecs cands rr).length : ℤ)).toNat)
              (verdictRecs cands rr).length
            rw [add_comm] at h
            exact h
          · exact nodup_judgeRecs _ cands rr hvrNodup hydNodup
      · exact ⟨RanksFrom_fallbackRecs _ cands _ 1,
          nodup_fallbackRecs _ cands _ 1 hydNodup⟩

theorem C2_rank_contiguity_amended_witness :
    RanksPositional ([⟨⟨"a", "t", "p", 0, 0⟩, 1, "Vibe match: p", 1⟩] :
      List (Recommendation ℕ)) ∧
    NoDupMedia ([⟨⟨"a", "t", "p", 0, 0⟩, 1, "Vibe match: p", 1⟩] :
      List (Recommendation ℕ)) :=
  C2_rank_contiguity_amended envW cfgW
    ⟨[⟨⟨"a", "t", "p", 0, 0⟩, 1, "Vibe match: p", 1⟩], "q", 1, 1⟩
    (fun id m hm => by injection hm with h3; subst h3; rfl)
    (by decide)
    (fun judge cands rr hj _ => Option.noConfusion hj)
    (by decide)

/-! ### C3: judge fallback equivalence -/

/-- The fields of a recommendation other than the explanation text. -/
def stripExpl {α : Type} (r : Recommendation α) : Media × α × ℤ :=
  (r.media, r.vibeScore, r.rank)

/-- Modelled from the spec wording of the fallback contract: the hydrated
candidates in positional similarity order truncated to finalResults, rank
assigned positionally (position i gets rank i+1). -/
def specPositional {α : Type} (n : ℕ) (cands : List (RerankCandidate α)) :
    List (Media × α × ℤ) :=
  (cands.take n).enum.map (fun p => (p.2.media, p.2.vibeScore, (p.1 : ℤ) + 1))

theorem fallbackRecs_strip {α : Type} (lbl : String) :
    ∀ (cs : List (RerankCandidate α)) (n : ℤ) (k : ℕ),
      (fallbackRecs lbl n ((k : ℤ) + 1) cs).map stripExpl =
        ((cs.take n.toNat).enumFrom k).map
          (fun p => (p.2.media, p.2.vibeScore, (p.1 : ℤ) + 1)) := by
  intro cs
  induction cs with
  | nil => intro n k; simp [fallbackRecs]
  | cons c cs ih =>
    intro n k
    rw [fallbackRecs]
    split
    · next h =>
      have h0 : n.toNat = 0 := by omega
      simp [h0]
    · next h =>
      have hn : n.toNat = (n - 1).toNat + 1 := by omega
      rw [hn, List.take_succ_cons, List.enumFrom_cons, List.map_cons,
        List.map_cons]
      have hcast : ((k : ℤ) + 1) + 1 = ((k + 1 : ℕ) : ℤ) + 1 := by push_cast; ring
      rw [hcast, ih (n - 1) (k + 1)]
      rfl

/-- The two fallback branches agree after erasing the explanation text, and
both are the spec's positional list. -/
theorem fallbackRecs_strip_spec {α : Type} (lbl : String)
    (cs : List (RerankCandidate α)) (n : ℤ) :
    (fallbackRecs lbl n 1 cs).map stripExpl = specPositional n.toNat cs := by
  have h := fallbackRecs_strip lbl cs n 0
  rw [show ((0 : ℕ) : ℤ) + 1 = 1 by norm_num] at h
  rw [h]
  rfl

/-- Environment whose judge always fails. -/
def envC3 : Env ℕ :=
  { envW with llmClient := some (fun _ _ => .error "llm down") }

def cfgC3T : SearchConfig := ⟨"u", "q", 1, 1, true⟩

/-- C3 counterexample: the judge-failure branch and the judge-disabled branch
produce lists that differ in the explanation field ("Vibe match based on: "
versus "Vibe match: "), so the two lists are not equal. -/
theorem C3_fallback_equivalence_counterexample :
    VibeSearchService.Search envC3 cfgC3T =
      .ok ⟨[⟨⟨"a", "t", "p", 0, 0⟩, 1, "Vibe match based on: p", 1⟩], "q", 1, 1⟩ ∧
    VibeSearchService.Search envC3 ⟨"u", "q", 1, 1, false⟩ =
      .ok ⟨[⟨⟨"a", "t", "p", 0, 0⟩, 1, "Vibe match: p", 1⟩], "q", 1, 1⟩ ∧
    ([⟨⟨"a", "t", "p", 0, 0⟩, 1, "Vibe match based on: p", 1⟩] :
        List (Recommendation ℕ)) ≠
      [⟨⟨"a", "t", "p", 0, 0⟩, 1, "Vibe match: p", 1⟩] :=
  ⟨by decide, by decide, by decide⟩

/-- C3 amended: with a failing judge, the judge-failure run and the
judge-disabled run agree after erasing the explanation text, and both equal
the spec's positional list (hydrated candidates in similarity order truncated
to finalResults, rank positional). -/
theorem C3_fallback_equivalence_amended {α : Type} [LinearOrder α] (env : Env α)
    (config : SearchConfig) (qv : Vec) (seen : Finset String)
    (judge : String → List (RerankCandidate α) → Except String (List RerankResult))
    (hrer : config.useReranking = true)
    (hemb : env.embed config.query = .ok qv)
    (hseen : env.getSeenMediaIDs config.userID = .ok seen)
    (hj : env.llmClient = some judge)
    (hfail : ∀ cands, ∃ e, judge config.query cands = .error e) :
    (VibeSearchService.Search env config).map
        (fun r => r.recommendations.map stripExpl) =
      .ok (specPositional
        (if config.finalResults ≤ 0 then 10 else config.finalResults).toNat
        (hydrateCandidates env.getMedia
          (VectorStore.Search env.sim env.vectors qv
            (if config.topK ≤ 0 then 20 else config.topK).toNat seen))) ∧
    (VibeSearchService.Search env { config with useReranking := false }).map
        (fun r => r.recommendations.map stripExpl) =
      .ok (specPositional
        (if config.finalResults ≤ 0 then 10 else config.finalResults).toNat
        (hydrateCandidates env.getMedia
          (VectorStore.Search env.sim env.vectors qv
            (if config.topK ≤ 0 then 20 else config.topK).toNat seen))) := by
  unfold VibeSearchService.Search
  rw [hemb, hseen]
  dsimp only
  by_cases hc : (VectorStore.Search env.sim env.vectors qv
      (if config.topK ≤ 0 then 20 else config.topK).toNat seen).isEmpty = true
  · rw [if_pos hc]
    have hnil : VectorStore.Search env.sim env.vectors qv
        (if config.topK ≤ 0 then 20 else config.topK).toNat seen = [] :=
      List.isEmpty_iff.1 hc
    rw [hnil]
    constructor <;> simp [Except.map, specPositional, hydrateCandidates]
  · rw [if_neg hc]
    rw [hj]
    simp only [rankingStep]
    set cands := hydrateCandidates env.getMedia
      (VectorStore.Search env.sim env.vectors qv
        (if config.topK ≤ 0 then 20 else config.topK).toNat seen) with hcands
    constructor
    · by_cases hcand : cands.isEmpty
      · rw [hrer]
        have hbool : (true && !cands.isEmpty) = false := by rw [hcand]; rfl
        rw [hbool, if_neg (show ¬ (false = true) from by decide)]
        dsimp only [Except.map]
        rw [fallbackRecs_strip_spec]
      · rw [hrer]
        have hbool : (true && !cands.isEmpty) = true := by
          revert hcand
          cases cands.isEmpty <;> simp
        rw [hbool, if_pos (show (true = true) from rfl)]
        obtain ⟨e, he⟩ := hfail cands
        rw [he]
        dsimp only [Except.map]
        rw [fallbackRecs_strip_spec]
    · have hbool : (({ config with useReranking := false } : SearchConfig).useReranking
          && !cands.isEmpty) = false := by rfl
      rw [hbool, if_neg (show ¬ (false = true) from by decide)]
      rw [if_neg hc]
      dsimp only [Except.map]
      rw [fallbackRecs_strip_spec]

theorem C3_fallback_equivalence_amended_witness :
    (VibeSearchService.Search envC3 cfgC3T).map
        (fun r => r.recommendations.map stripExpl) =
      .ok (specPositional
        (if cfgC3T.finalResults ≤ 0 then 10 else cfgC3T.finalResults).toNat
        (hydrateCandidates envC3.getMedia
          (VectorStore.Search envC3.sim envC3.vectors [1]
            (if cfgC3T.topK ≤ 0 then 20 else cfgC3T.topK).toNat {"b"}))) ∧
    (VibeSearchService.Search envC3 { cfgC3T with useReranking := false }).map
        (fun r => r.recommendations.map stripExpl) =
      .ok (specPositional
        (if cfgC3T.finalResults ≤ 0 then 10 else cfgC3T.finalResults).toNat
        (hydrateCandidates envC3.getMedia
          (VectorStore.Search envC3.sim envC3.vectors [1]
            (if cfgC3T.topK ≤ 0 then 20 else cfgC3T.topK).toNat {"b"}))) :=
  C3_fallback_equivalence_amended envC3 cfgC3T [1] {"b"}
    (fun _ _ => .error "llm down") rfl rfl rfl rfl
    (fun _ => ⟨"llm down", rfl⟩)

/-! ### C4, C5, C6 -/

/-- C4: for topK ≥ 1, VectorStore.Search returns at most topK candidates,
sorted by similarity descending, with every excluded id absent; on an empty
index it returns the empty sequence, and in that case the orchestrator
returns a successful result with no recommendations, TotalCandidates = 0 and
FilteredCount = the exclusion-set size. -/
theorem C4_search_contract {α : Type} [LinearOrder α] (sim : Vec → Vec → α)
    (vectors : List (String × Vec)) (query : Vec) (topK : ℕ)
    (excludeIDs : Finset String) (_htopK : 1 ≤ topK) :
    ((VectorStore.Search sim vectors query topK excludeIDs).length ≤ topK ∧
      List.Sorted (fun r s : SearchResult α => s.similarity ≤ r.similarity)
        (VectorStore.Search sim vectors query topK excludeIDs) ∧
      (∀ r ∈ VectorStore.Search sim vectors query topK excludeIDs,
        r.mediaID ∉ excludeIDs) ∧
      VectorStore.Search sim [] query topK excludeIDs = []) ∧
    (∀ (env : Env α) (config : SearchConfig) (qv : Vec) (seen : Finset String),
      env.vectors = [] → env.embed config.query = .ok qv →
      env.getSeenMediaIDs config.userID = .ok seen →
      VibeSearchService.Search env config = .ok ⟨[], config.query, 0, seen.card⟩) := by
  refine ⟨⟨length_Search_le sim vectors query topK excludeIDs,
    sorted_Search sim vectors query topK excludeIDs,
    fun r hr => (mem_Search hr).1,
    Search_nil sim query topK excludeIDs⟩, ?_⟩
  intro env config qv seen hnil hemb hseen
  unfold VibeSearchService.Search
  rw [hemb, hseen, hnil]
  rfl

theorem C4_search_contract_witness :
    (VectorStore.Search (fun _ v : Vec => v.length) [("a", [1])] [1] 1
        (∅ : Finset String)).length ≤ 1 ∧
    VibeSearchService.Search { envW with vectors := [] } cfgW =
      .ok ⟨[], "q", 0, 1⟩ := by
  have h := C4_search_contract (fun _ v : Vec => v.length) [("a", [1])] [1] 1 ∅
    (by decide)
  exact ⟨h.1.1, h.2 { envW with vectors := [] } cfgW [1] {"b"} rfl rfl rfl⟩

/-- C5 counterexample: the same id→vector map enumerated in two iteration
orders (Go randomises map iteration) with a tie in similarity produces two
different result sequences, so Search as coded is not deterministic for a
given index snapshot. -/
theorem C5_determinism_counterexample :
    ([("a", ([1] : Vec)), ("b", [1])]).Perm [("b", ([1] : Vec)), ("a", [1])] ∧
    VectorStore.Search (fun _ v : Vec => v.length) [("a", [1]), ("b", [1])] [1] 1
        (∅ : Finset String) ≠
      VectorStore.Search (fun _ v : Vec => v.length) [("b", [1]), ("a", [1])] [1] 1
        (∅ : Finset String) := by
  constructor
  · exact List.Perm.swap _ _ _
  · decide

theorem C5_determinism_amended_witness :
    VectorStore.Search (fun _ v : Vec => v.length)
        [("a", ([1] : Vec)), ("b", [1, 1])] [1] 2 (∅ : Finset String) =
      VectorStore.Search (fun _ v : Vec => v.length)
        [("b", ([1, 1] : Vec)), ("a", [1])] [1] 2 (∅ : Finset String) :=
  C5_determinism_amended (fun _ v : Vec => v.length) [1] 2 ∅
    (by decide) (by decide)

/-- C6: Search returns an error exactly when the query-embedding call or the
seen-media-ids lookup fails; a judge failure is never surfaced as an error. -/
theorem C6_error_propagation {α : Type} [LinearOrder α] (env : Env α)
    (config : SearchConfig) :
    (∃ e, VibeSearchService.Search env config = .error e) ↔
      ((∃ e, env.embed config.query = .error e) ∨
        (∃ e, env.getSeenMediaIDs config.userID = .error e)) := by
  constructor
  · rintro ⟨e, he⟩
    cases hemb : env.embed config.query with
    | error e2 => exact Or.inl ⟨e2, rfl⟩
    | ok qv =>
      cases hseen : env.getSeenMediaIDs config.userID with
      | error e2 => exact Or.inr ⟨e2, rfl⟩
      | ok seen =>
        exfalso
        unfold VibeSearchService.Search at he
        rw [hemb, hseen] at he
        dsimp only at he
        by_cases hc : (VectorStore.Search env.sim env.vectors qv
            (if config.topK ≤ 0 then 20 else config.topK).toNat seen).isEmpty = true
        · rw [if_pos hc] at he
          exact Except.noConfusion he
        · rw [if_neg hc] at he
          exact Except.noConfusion he
  · rintro (⟨e, he⟩ | ⟨e, he⟩)
    · refine ⟨"failed to embed query: " ++ e, ?_⟩
      unfold VibeSearchService.Search
      rw [he]
    · cases hemb : env.embed config.query with
      | error e2 =>
        refine ⟨"failed to embed query: " ++ e2, ?_⟩
        unfold VibeSearchService.Search
        rw [hemb]
      | ok qv =>
        refine ⟨"failed to get seen media: " ++ e, ?_⟩
        unfold VibeSearchService.Search
        rw [hemb, he]

/-! ### C7: unknown verdicts are dropped, remaining slots are filled -/

/-- C7: when the judge succeeds, verdicts whose media id does not resolve
against the candidate set produce no recommendation and no error (the run
still succeeds and the output only depends on the resolvable verdicts), and
the remaining slots up to finalResults are filled from the not-yet-ranked
hydrated candidates in order, with consecutive rank numbers after the
verdicts and the generic explanation. -/
theorem C7_unknown_verdicts_dropped {α : Type} [LinearOrder α] (env : Env α)
    (config : SearchConfig) (qv : Vec) (seen : Finset String)
    (judge : String → List (RerankCandidate α) → Except String (List RerankResult))
    (reranked : List RerankResult)
    (hemb : env.embed config.query = .ok qv)
    (hseen : env.getSeenMediaIDs config.userID = .ok seen)
    (hj : env.llmClient = some judge)
    (hrer : config.useReranking = true)
    (hok : judge config.query (hydrateCandidates env.getMedia
      (VectorStore.Search env.sim env.vectors qv
        (if config.topK ≤ 0 then 20 else config.topK).toNat seen)) = .ok reranked)
    (hcne : VectorStore.Search env.sim env.vectors qv
      (if config.topK ≤ 0 then 20 else config.topK).toNat seen ≠ [])
    (hhne : hydrateCandidates env.getMedia
      (VectorStore.Search env.sim env.vectors qv
        (if config.topK ≤ 0 then 20 else config.topK).toNat seen) ≠ []) :
    (VibeSearchService.Search env config).map (fun r => r.recommendations) =
      .ok (judgeRecs (if config.finalResults ≤ 0 then 10 else config.finalResults)
        (hydrateCandidates env.getMedia
          (VectorStore.Search env.sim env.vectors qv
            (if config.topK ≤ 0 then 20 else config.topK).toNat seen)) reranked) ∧
    judgeRecs (if config.finalResults ≤ 0 then 10 else config.finalResults)
        (hydrateCandidates env.getMedia
          (VectorStore.Search env.sim env.vectors qv
            (if config.topK ≤ 0 then 20 else config.topK).toNat seen)) reranked =
      judgeRecs (if config.finalResults ≤ 0 then 10 else config.finalResults)
        (hydrateCandidates env.getMedia
          (VectorStore.Search env.sim env.vectors qv
            (if config.topK ≤ 0 then 20 else config.topK).toNat seen))
        (reranked.filter (fun r => (mediaMapLookup
          (hydrateCandidates env.getMedia
            (VectorStore.Search env.sim env.vectors qv
              (if config.topK ≤ 0 then 20 else config.topK).toNat seen))
          r.mediaID).isSome)) ∧
    (∀ (n : ℤ) (cands : List (RerankCandidate α)) (rr : List RerankResult),
      judgeRecs n cands rr = verdictRecs cands rr ++
        rankFrom (verdictRecs cands rr).length
          ((cands.filter (fun c => !((verdictRecs cands rr).map
            (fun r => r.media.id)).contains c.media.id)).take
            (n - ((verdictRecs cands rr).length : ℤ)).toNat) ∧
      RanksFrom (((verdictRecs cands rr).length : ℤ) + 1)
        (rankFrom (verdictRecs cands rr).length
          ((cands.filter (fun c => !((verdictRecs cands rr).map
            (fun r => r.media.id)).contains c.media.id)).take
            (n - ((verdictRecs cands rr).length : ℤ)).toNat))) := by
  refine ⟨?_, ?_, ?_⟩
  · unfold VibeSearchService.Search
    rw [hemb, hseen]
    dsimp only
    rw [if_neg (fun h => hcne (List.isEmpty_iff.1 h))]
    rw [hj]
    simp only [rankingStep]
    rw [hrer]
    have hbool : (true && !(hydrateCandidates env.getMedia
        (VectorStore.Search env.sim env.vectors qv
          (if config.topK ≤ 0 then 20 else config.topK).toNat seen)).isEmpty)
        = true := by
      have : (hydrateCandidates env.getMedia
          (VectorStore.Search env.sim env.vectors qv
            (if config.topK ≤ 0 then 20 else config.topK).toNat seen)).isEmpty
          = false := by
        rw [List.isEmpty_eq_false]
        exact hhne
      rw [this]
      rfl
    rw [hbool, if_pos (show (true = true) from rfl), hok]
    rfl
  · have hvr := verdictRecs_filter (hydrateCandidates env.getMedia
      (VectorStore.Search env.sim env.vectors qv
        (if config.topK ≤ 0 then 20 else config.topK).toNat seen)) reranked
    unfold judgeRecs
    dsimp only
    rw [← hvr]
  · intro n cands rr
    exact ⟨judgeRecs_eq n cands rr, RanksFrom_rankFrom _ _⟩

/-- Environment whose judge answers with a verdict for an id that is not in
the candidate set. -/
def envC7 : Env ℕ :=
  { envW with llmClient := some (fun _ _ => .ok [⟨"zz", 1, "y"⟩]) }

def cfgC7 : SearchConfig := ⟨"u", "q", 1, 1, true⟩

theorem C7_unknown_verdicts_dropped_witness :
    (VibeSearchService.Search envC7 cfgC7).map (fun r => r.recommendations) =
      .ok [⟨⟨"a", "t", "p", 0, 0⟩, 1, "Similar vibe: p", 1⟩] := by
  have h := C7_unknown_verdicts_dropped envC7 cfgC7 [1] {"b"}
    (fun _ _ => .ok [⟨"zz", 1, "y"⟩]) [⟨"zz", 1, "y"⟩]
    rfl rfl rfl rfl rfl (by decide) (by decide)
  rw [h.1]
  decide

/-! ### C8: cosine similarity guards and symmetry -/

theorem dotList_comm : ∀ a b : Vec, dotList a b = dotList b a
  | [], [] => rfl
  | [], _ :: _ => rfl
  | _ :: _, [] => rfl
  | x :: xs, y :: ys => by
    show x * y + dotList xs ys = y * x + dotList ys xs
    rw [mul_comm, dotList_comm xs ys]

/-- C8: CosineSimilarity returns 0 on length mismatch and on zero norms (so
it is total: no NaN, Inf or error in the exact-arithmetic idealisation), and
it is symmetric in its arguments. -/
theorem C8_cosine_guards_and_symmetry (a b : Vec) :
    (a.length ≠ b.length → CosineSimilarity a b = 0) ∧
    ((normSqList a = 0 ∨ normSqList b = 0) → CosineSimilarity a b = 0) ∧
    CosineSimilarity a b = CosineSimilarity b a := by
  refine ⟨?_, ?_, ?_⟩
  · intro h
    unfold CosineSimilarity
    rw [if_pos h]
  · intro h
    unfold CosineSimilarity
    by_cases hl : a.length ≠ b.length
    · rw [if_pos hl]
    · rw [if_neg hl, if_pos h]
  · unfold CosineSimilarity
    by_cases hl : a.length = b.length
    · have hl1 : ¬ a.length ≠ b.length := by simp [hl]
      have hl2 : ¬ b.length ≠ a.length := by simp [hl]
      rw [if_neg hl1, if_neg hl2]
      by_cases hn : normSqList a = 0 ∨ normSqList b = 0
      · rw [if_pos hn, if_pos (Or.symm hn)]
      · have hn2 : ¬ (normSqList b = 0 ∨ normSqList a = 0) :=
          fun h2 => hn (Or.symm h2)
        rw [if_neg hn, if_neg hn2, dotList_comm a b, mul_comm]
    · have hl1 : a.length ≠ b.length := hl
      have hl2 : b.length ≠ a.length := fun h2 => hl h2.symm
      rw [if_pos hl1, if_pos hl2]

theorem C8_cosine_guards_and_symmetry_witness :
    CosineSimilarity [1] [1, 2] = 0 ∧ CosineSimilarity [0] [1] = 0 := by
  constructor
  · exact (C8_cosine_guards_and_symmetry [1] [1, 2]).1 (by decide)
  · refine (C8_cosine_guards_and_symmetry [0] [1]).2.1 (Or.inl ?_)
    show dotList [0] [0] = 0
    simp [dotList]

/-! ### C9: hidden gems -/

theorem gemsLoop_suffix (seen : Finset String) (limit : ℤ) :
    ∀ (ms : List Media) (gems : List Media),
      ∃ s, gemsLoop seen limit gems ms = gems ++ s ∧ s.Sublist ms := by
  intro ms
  induction ms with
  | nil => intro gems; exact ⟨[], by simp [gemsLoop], List.nil_sublist _⟩
  | cons m ms ih =>
    intro gems
    rw [gemsLoop]
    by_cases h : m.id ∉ seen ∧ (gems.length : ℤ) < limit
    · rw [if_pos h]
      obtain ⟨s, hs, hsub⟩ := ih (gems ++ [m])
      exact ⟨m :: s, by rw [hs, List.append_assoc]; rfl,
        List.Sublist.cons₂ _ hsub⟩
    · rw [if_neg h]
      obtain ⟨s, hs, hsub⟩ := ih gems
      exact ⟨s, hs, List.Sublist.cons _ hsub⟩

theorem gemsLoop_length (seen : Finset String) (limit : ℤ) :
    ∀ (ms : List Media) (gems : List Media),
      (gems.length : ℤ) ≤ limit →
      ((gemsLoop seen limit gems ms).length : ℤ) ≤ limit := by
  intro ms
  induction ms with
  | nil => intro gems h; simpa [gemsLoop] using h
  | cons m ms ih =>
    intro gems h
    rw [gemsLoop]
    by_cases hc : m.id ∉ seen ∧ (gems.length : ℤ) < limit
    · rw [if_pos hc]
      refine ih _ ?_
      have := hc.2
      simp only [List.length_append, List.length_cons, List.length_nil]
      push_cast
      omega
    · rw [if_neg hc]
      exact ih _ h

/-- C9: every hidden gem satisfies the quality rule, is unseen, the list is
ordered descending by quality − 0.3·popularity, and at most limit items are
returned (exclusion is applied before the limit cut). -/
theorem C9_hidden_gems {α : Type} (env : Env α) (userID : String)
    (limit : ℤ) (seen : Finset String) (gems : List Media)
    (hlim : 0 ≤ limit)
    (hseen : env.getSeenMediaIDs userID = .ok seen)
    (hres : VibeSearchService.GetHiddenGems env userID limit = .ok gems) :
    (∀ m ∈ gems, gemEligible m = true) ∧
    (∀ m ∈ gems, m.id ∉ seen) ∧
    List.Sorted (fun x y : Media => gemKey y ≤ gemKey x) gems ∧
    (gems.length : ℤ) ≤ limit := by
  unfold VibeSearchService.GetHiddenGems at hres
  rw [hseen] at hres
  dsimp only at hres
  have hg := Except.ok.inj hres
  obtain ⟨s, hs, hsub⟩ := gemsLoop_suffix seen limit
    (hiddenGemsQuery env.mediaTable seen (limit * 2).toNat) []
  rw [hs] at hg
  rw [List.nil_append] at hg
  subst hg
  have hrows : ∀ m ∈ hiddenGemsQuery env.mediaTable seen (limit * 2).toNat,
      gemEligible m = true ∧ m.id ∉ seen := by
    intro m hm
    unfold hiddenGemsQuery at hm
    have hm2 := List.Sublist.mem hm (List.take_sublist _ _)
    rw [List.mem_insertionSort] at hm2
    obtain ⟨_, hp⟩ := List.mem_filter.1 hm2
    rw [Bool.and_eq_true] at hp
    exact ⟨hp.2, by simpa using hp.1⟩
  have hmem : ∀ m ∈ s, m ∈ hiddenGemsQuery env.mediaTable seen (limit * 2).toNat :=
    fun m hm => List.Sublist.mem hm hsub
  refine ⟨fun m hm => (hrows m (hmem m hm)).1,
    fun m hm => (hrows m (hmem m hm)).2, ?_, ?_⟩
  · have hsorted : List.Sorted (fun x y : Media => gemKey y ≤ gemKey x)
        (hiddenGemsQuery env.mediaTable seen (limit * 2).toNat) := by
      haveI : IsTotal Media (fun x y : Media => gemKey y ≤ gemKey x) :=
        ⟨fun x y => le_total _ _⟩
      haveI : IsTrans Media (fun x y : Media => gemKey y ≤ gemKey x) :=
        ⟨fun _ _ _ h1 h2 => le_trans h2 h1⟩
      unfold hiddenGemsQuery
      exact List.Pairwise.sublist (List.take_sublist _ _)
        (List.sorted_insertionSort _ _)
    exact List.Pairwise.sublist hsub hsorted
  · have h := gemsLoop_length seen limit
      (hiddenGemsQuery env.mediaTable seen (limit * 2).toNat) [] (by simpa using hlim)
    rw [hs, List.nil_append] at h
    exact h

/-- Environment with a media table for the hidden-gems witness. -/
def envC9 : Env ℕ :=
  { envW with
    mediaTable := [⟨"A", "t", "p", 1, 0⟩, ⟨"B", "t", "p", 0, 1⟩],
    getSeenMediaIDs := fun _ => .ok ∅ }

theorem C9_hidden_gems_witness :
    (∀ m ∈ [(⟨"A", "t", "p", 1, 0⟩ : Media)], gemEligible m = true) ∧
    (∀ m ∈ [(⟨"A", "t", "p", 1, 0⟩ : Media)], m.id ∉ (∅ : Finset String)) ∧
    List.Sorted (fun x y : Media => gemKey y ≤ gemKey x)
      [(⟨"A", "t", "p", 1, 0⟩ : Media)] ∧
    (([(⟨"A", "t", "p", 1, 0⟩ : Media)].length : ℤ)) ≤ 1 := by
  have hA : gemEligible ⟨"A", "t", "p", 1, 0⟩ = true := by simp [gemEligible]
  have hB : gemEligible ⟨"B", "t", "p", 0, 1⟩ = false := by simp [gemEligible]
  have hres : VibeSearchService.GetHiddenGems envC9 "u" 1 =
      .ok [⟨"A", "t", "p", 1, 0⟩] := by
    unfold VibeSearchService.GetHiddenGems hiddenGemsQuery
    simp [envC9, envW, hA, hB, gemsLoop, List.insertionSort, List.orderedInsert]
  exact C9_hidden_gems envC9 "u" 1 ∅ [⟨"A", "t", "p", 1, 0⟩] (by decide) rfl hres
